import Mathlib

/-!
Shallow embedding of the solar-system N-body simulator (src/main.rs).

Vectors `na::Vector3<f64>` are modelled as triples of real numbers; the
floating-point arithmetic of the source is modelled by exact real
arithmetic (with Lean's convention that division by zero yields zero,
where the source would produce a non-finite value).
-/

namespace SolarSim

/-- A 3-component vector, modelling `na::Vector3<f64>`. -/
abbrev Vec3 : Type := ℝ × ℝ × ℝ

/-- Euclidean norm, modelling nalgebra's `magnitude()`. -/
noncomputable def magnitude (v : Vec3) : ℝ :=
  Real.sqrt (v.1 ^ 2 + v.2.1 ^ 2 + v.2.2 ^ 2)

/-- Componentwise division by the norm, modelling nalgebra's `normalize()`. -/
noncomputable def normalize (v : Vec3) : Vec3 :=
  (v.1 / magnitude v, v.2.1 / magnitude v, v.2.2 / magnitude v)

/-- Componentwise division of a vector by a scalar, modelling `vector / scalar`. -/
noncomputable def vdiv (v : Vec3) (c : ℝ) : Vec3 :=
  (v.1 / c, v.2.1 / c, v.2.2 / c)

/-- The `Planet` struct of the source: display attributes (`name`, `color`),
mass, position and velocity. `Rgb<u8>` is modelled as a triple of naturals. -/
structure Planet where
  name : String
  mass : ℝ
  position : Vec3
  velocity : Vec3
  color : ℕ × ℕ × ℕ

/-- `Planet::new`: plain record construction, no validation of any field. -/
def Planet.new (name : String) (mass : ℝ) (position : Vec3) (velocity : Vec3)
    (color : ℕ × ℕ × ℕ) : Planet :=
  { name := name, mass := mass, position := position, velocity := velocity,
    color := color }

/-- The `SolarSystem` struct: ordered body collection plus the gravitational
constant. -/
structure SolarSystem where
  planets : List Planet
  gravitational_constant : ℝ

/-- `SolarSystem::new`: empty collection, G = 6.67430e-11. -/
noncomputable def SolarSystem.new : SolarSystem :=
  { planets := [], gravitational_constant := 6.67430e-11 }

/-- `SolarSystem::add_planet`: push the planet at the end of the collection. -/
def SolarSystem.add_planet (s : SolarSystem) (p : Planet) : SolarSystem :=
  { s with planets := s.planets ++ [p] }

/-- The body of the inner loop of `compute_gravitational_forces` for one
ordered pair: displacement from `a` toward `b`, Euclidean distance,
`force_magnitude = G * a.mass * b.mass / distance^2`, force along the
normalized displacement. -/
noncomputable def bodyForce (g : ℝ) (a b : Planet) : Vec3 :=
  let direction := b.position - a.position
  let distance := magnitude direction
  let force_magnitude := g * a.mass * b.mass / distance ^ 2
  force_magnitude • normalize direction

/-- The inner `j` loop of `compute_gravitational_forces`: starting from the
zero vector, fold over the indexed body list, accumulating `bodyForce` for
every `j ≠ i`. -/
noncomputable def forceOn (g : ℝ) (planets : List Planet) (i : ℕ) (pi : Planet) :
    Vec3 :=
  planets.enum.foldl
    (fun acc x => if i ≠ x.1 then acc + bodyForce g pi x.2 else acc) 0

/-- `SolarSystem::compute_gravitational_forces`: one accumulated force vector
per body, outer loop over `i`, inner loop over `j`. -/
noncomputable def SolarSystem.compute_gravitational_forces (s : SolarSystem) :
    List Vec3 :=
  s.planets.enum.map (fun x => forceOn s.gravitational_constant s.planets x.1 x.2)

/-- The loop body of `update_positions` for one planet: acceleration from the
staged force, velocity updated first, position updated with the already
updated velocity (semi-implicit Euler). -/
noncomputable def integrate (dt : ℝ) (p : Planet) (f : Vec3) : Planet :=
  let acceleration := vdiv f p.mass
  let velocity := p.velocity + dt • acceleration
  { p with velocity := velocity, position := p.position + dt • velocity }

/-- `SolarSystem::update_positions`: forces for the whole collection are
computed first into a buffer, then every planet is updated from its entry. -/
noncomputable def SolarSystem.update_positions (s : SolarSystem) (dt : ℝ) :
    SolarSystem :=
  let forces := s.compute_gravitational_forces
  { s with planets := List.zipWith (integrate dt) s.planets forces }

/-- The `update` driver function: one frame advances the simulation by
`dt = 60.0 * speed_multiplier` seconds. -/
structure Model where
  solar_system : SolarSystem
  speed_multiplier : ℝ
  scale_factor : ℝ

/-- The source's `update` callback: `update_positions(60.0 * speed_multiplier)`. -/
noncomputable def update (m : Model) : Model :=
  { m with solar_system := m.solar_system.update_positions (60.0 * m.speed_multiplier) }

/-- A step of nominal length `dt` under time scale `ts`, the generalization of
the driver's `update_positions(60.0 * speed_multiplier)` to an arbitrary
nominal step: the effective step is the product `dt * ts`. -/
noncomputable def step_scaled (s : SolarSystem) (dt ts : ℝ) : SolarSystem :=
  s.update_positions (dt * ts)

/-- Iterating `update_positions` a number of steps of fixed `dt`. -/
noncomputable def step_iter (s : SolarSystem) (dt : ℝ) : ℕ → SolarSystem
  | 0 => s
  | n + 1 => (step_iter s dt n).update_positions dt

/-- Placeholder planet used as the default of list lookups. -/
def dfltPlanet : Planet :=
  { name := "", mass := 0, position := 0, velocity := 0, color := (0, 0, 0) }

/-- Total momentum: mass-weighted sum of the velocities. -/
noncomputable def momentum (s : SolarSystem) : Vec3 :=
  (s.planets.map (fun p => p.mass • p.velocity)).sum

/-- The spec's force on one body from one other: the vector of magnitude
`G * mass_i * mass_j / distance^2` directed along the unit displacement
vector from body `i` toward body `j`. -/
noncomputable def spec_pair_force (g : ℝ) (a b : Planet) : Vec3 :=
  (g * a.mass * b.mass / (magnitude (b.position - a.position)) ^ 2) •
    ((1 / magnitude (b.position - a.position)) • (b.position - a.position))

/-- The spec's contract for the force model, written independently of the
source's loops: one entry per body, the entry for body `i` being the sum
over every `j ≠ i` of `spec_pair_force`. -/
noncomputable def compute_forces_spec (g : ℝ) (ps : List Planet) : List Vec3 :=
  (List.range ps.length).map (fun i =>
    ∑ j ∈ Finset.range ps.length,
      if i = j then 0 else spec_pair_force g (ps.getD i dfltPlanet) (ps.getD j dfltPlanet))

/-! ### Helper lemmas: folds and list sums as `Finset.range` sums -/

theorem foldl_add_eq {α M : Type} [AddCommMonoid M] (g : α → M) : ∀ (l : List α) (v : M),
    l.foldl (fun acc x => acc + g x) v = v + (l.map g).sum
  | [], v => by simp
  | a :: l, v => by
    simp only [List.foldl_cons, List.map_cons, List.sum_cons, foldl_add_eq g l]
    rw [add_assoc]

theorem enumFrom_map_sum {α M : Type} [AddCommMonoid M] (g : ℕ × α → M) (d : α) :
    ∀ (l : List α) (k : ℕ),
    ((l.enumFrom k).map g).sum = ∑ j ∈ Finset.range l.length, g (k + j, l.getD j d)
  | [], k => by simp
  | a :: l, k => by
    simp only [List.enumFrom_cons, List.map_cons, List.sum_cons, List.length_cons,
      enumFrom_map_sum g d l (k + 1)]
    rw [Finset.sum_range_succ']
    simp only [List.getD_cons_succ, List.getD_cons_zero, Nat.add_zero]
    rw [add_comm]
    congr 1
    · apply Finset.sum_congr rfl
      intro j _
      have hjk : k + 1 + j = k + (j + 1) := by omega
      rw [hjk]

theorem map_sum_eq_range_sum {α M : Type} [AddCommMonoid M] (g : α → M) (d : α) :
    ∀ (l : List α),
    (l.map g).sum = ∑ j ∈ Finset.range l.length, g (l.getD j d)
  | [] => by simp
  | a :: l => by
    simp only [List.map_cons, List.sum_cons, List.length_cons, map_sum_eq_range_sum g d l]
    rw [Finset.sum_range_succ']
    simp only [List.getD_cons_succ, List.getD_cons_zero]
    rw [add_comm]

theorem zipWith_map_sum {α β γ M : Type} [AddCommMonoid M] (f : α → β → γ) (g : γ → M)
    (d1 : α) (d2 : β) :
    ∀ (l1 : List α) (l2 : List β), l1.length = l2.length →
    ((List.zipWith f l1 l2).map g).sum
      = ∑ j ∈ Finset.range l1.length, g (f (l1.getD j d1) (l2.getD j d2))
  | [], [], _ => by simp
  | [], _ :: _, h => by simp at h
  | _ :: _, [], h => by simp at h
  | a :: l1, b :: l2, h => by
    simp only [List.zipWith_cons_cons, List.map_cons, List.sum_cons, List.length_cons]
    rw [zipWith_map_sum f g d1 d2 l1 l2 (by simpa using h)]
    rw [Finset.sum_range_succ']
    simp only [List.getD_cons_succ, List.getD_cons_zero]
    rw [add_comm]

/-! ### Helper lemmas: the force model -/

theorem magnitude_neg (v : Vec3) : magnitude (-v) = magnitude v := by
  simp [magnitude, neg_sq]

theorem normalize_neg (v : Vec3) : normalize (-v) = -normalize v := by
  simp only [normalize, magnitude_neg]
  refine Prod.ext ?_ (Prod.ext ?_ ?_) <;> simp [neg_div]

theorem bodyForce_antisymm (g : ℝ) (a b : Planet) :
    bodyForce g b a = -bodyForce g a b := by
  simp only [bodyForce]
  have hd : a.position - b.position = -(b.position - a.position) := by abel
  rw [hd, magnitude_neg, normalize_neg, smul_neg]
  ring_nf

theorem normalize_eq_smul (v : Vec3) : normalize v = (1 / magnitude v) • v := by
  refine Prod.ext ?_ (Prod.ext ?_ ?_) <;>
    simp [normalize, Prod.smul_fst, Prod.smul_snd, div_eq_inv_mul]

theorem bodyForce_eq_spec (g : ℝ) (a b : Planet) :
    bodyForce g a b = spec_pair_force g a b := by
  rw [bodyForce, spec_pair_force, normalize_eq_smul]

theorem forceOn_eq_sum (g : ℝ) (ps : List Planet) (i : ℕ) (pi : Planet) :
    forceOn g ps i pi
      = ∑ j ∈ Finset.range ps.length,
          if i = j then 0 else bodyForce g pi (ps.getD j dfltPlanet) := by
  rw [forceOn]
  rw [show (fun (acc : Vec3) (x : ℕ × Planet) =>
        if i ≠ x.1 then acc + bodyForce g pi x.2 else acc)
      = (fun acc x => acc + if i = x.1 then 0 else bodyForce g pi x.2) from ?_]
  · rw [foldl_add_eq, List.enum, enumFrom_map_sum _ dfltPlanet]
    simp
  · funext acc x
    by_cases h : i = x.1 <;> simp [h]

theorem compute_forces_length (s : SolarSystem) :
    s.compute_gravitational_forces.length = s.planets.length := by
  simp [SolarSystem.compute_gravitational_forces]

theorem compute_forces_getD (s : SolarSystem) (i : ℕ) (h : i < s.planets.length) :
    s.compute_gravitational_forces.getD i 0
      = ∑ j ∈ Finset.range s.planets.length,
          if i = j then 0
          else bodyForce s.gravitational_constant
            (s.planets.getD i dfltPlanet) (s.planets.getD j dfltPlanet) := by
  have hl : i < s.compute_gravitational_forces.length := by
    rw [compute_forces_length]; exact h
  rw [List.getD_eq_getElem _ _ hl]
  simp only [SolarSystem.compute_gravitational_forces, List.getElem_map,
    List.getElem_enum]
  rw [forceOn_eq_sum, List.getD_eq_getElem _ _ h]

/-! ### Helper lemmas: the integrator -/

theorem integrate_mass (dt : ℝ) (p : Planet) (f : Vec3) :
    (integrate dt p f).mass = p.mass := rfl

theorem integrate_name (dt : ℝ) (p : Planet) (f : Vec3) :
    (integrate dt p f).name = p.name := rfl

theorem integrate_color (dt : ℝ) (p : Planet) (f : Vec3) :
    (integrate dt p f).color = p.color := rfl

theorem integrate_velocity (dt : ℝ) (p : Planet) (f : Vec3) :
    (integrate dt p f).velocity = p.velocity + dt • vdiv f p.mass := rfl

theorem integrate_position (dt : ℝ) (p : Planet) (f : Vec3) :
    (integrate dt p f).position
      = p.position + dt • (p.velocity + dt • vdiv f p.mass) := rfl

theorem update_positions_length (s : SolarSystem) (dt : ℝ) :
    (s.update_positions dt).planets.length = s.planets.length := by
  simp [SolarSystem.update_positions, List.length_zipWith, compute_forces_length]

theorem update_positions_g (s : SolarSystem) (dt : ℝ) :
    (s.update_positions dt).gravitational_constant = s.gravitational_constant := rfl

/-! ### Helper lemmas: total force vanishes by antisymmetry -/

theorem sum_forces_zero (g : ℝ) (ps : List Planet) :
    ∑ i ∈ Finset.range ps.length, ∑ j ∈ Finset.range ps.length,
      (if i = j then 0
       else bodyForce g (ps.getD i dfltPlanet) (ps.getD j dfltPlanet)) = 0 := by
  have main : ∀ (F : ℕ → ℕ → Vec3), (∀ i j, F i j = -F j i) →
      (∑ i ∈ Finset.range ps.length, ∑ j ∈ Finset.range ps.length, F i j) = 0 := by
    intro F hanti
    have hswap :
        (∑ i ∈ Finset.range ps.length, ∑ j ∈ Finset.range ps.length, F i j)
          = -∑ i ∈ Finset.range ps.length, ∑ j ∈ Finset.range ps.length, F i j := by
      calc (∑ i ∈ Finset.range ps.length, ∑ j ∈ Finset.range ps.length, F i j)
          = ∑ j ∈ Finset.range ps.length, ∑ i ∈ Finset.range ps.length, F i j :=
            Finset.sum_comm
        _ = ∑ j ∈ Finset.range ps.length, ∑ i ∈ Finset.range ps.length, -F j i := by
            refine Finset.sum_congr rfl fun j _ => Finset.sum_congr rfl fun i _ => ?_
            rw [hanti]
        _ = -∑ i ∈ Finset.range ps.length, ∑ j ∈ Finset.range ps.length, F i j := by
            simp
    have h2 :
        (∑ i ∈ Finset.range ps.length, ∑ j ∈ Finset.range ps.length, F i j)
          + ∑ i ∈ Finset.range ps.length, ∑ j ∈ Finset.range ps.length, F i j = 0 := by
      nth_rewrite 1 [hswap]
      simp
    have h3 : (2:ℝ) • (∑ i ∈ Finset.range ps.length,
        ∑ j ∈ Finset.range ps.length, F i j) = 0 := by
      rw [two_smul]; exact h2
    exact (smul_eq_zero.mp h3).resolve_left (by norm_num)
  apply main
  intro i j
  by_cases h : i = j
  · subst h; simp
  · simp only [if_neg h, if_neg (Ne.symm h)]
    rw [bodyForce_antisymm]

/-! ### Helper lemmas: momentum -/

theorem smul_vdiv (m : ℝ) (hm : m ≠ 0) (f : Vec3) : m • vdiv f m = f := by
  refine Prod.ext ?_ (Prod.ext ?_ ?_) <;>
    simp [vdiv, Prod.smul_fst, Prod.smul_snd, smul_eq_mul, mul_div_assoc',
      mul_div_cancel_left₀ _ hm]

theorem momentum_eq_sum (s : SolarSystem) :
    momentum s = ∑ j ∈ Finset.range s.planets.length,
      (s.planets.getD j dfltPlanet).mass • (s.planets.getD j dfltPlanet).velocity := by
  rw [momentum, map_sum_eq_range_sum _ dfltPlanet]

theorem momentum_update_positions (s : SolarSystem) (dt : ℝ)
    (hm : ∀ p ∈ s.planets, p.mass ≠ 0) :
    momentum (s.update_positions dt) = momentum s := by
  rw [momentum_eq_sum, update_positions_length]
  have hlen : s.planets.length = s.compute_gravitational_forces.length :=
    (compute_forces_length s).symm
  have hz : (s.update_positions dt).planets
      = List.zipWith (integrate dt) s.planets s.compute_gravitational_forces := rfl
  have key : ∀ j ∈ Finset.range s.planets.length,
      ((s.update_positions dt).planets.getD j dfltPlanet).mass
        • ((s.update_positions dt).planets.getD j dfltPlanet).velocity
      = (s.planets.getD j dfltPlanet).mass • (s.planets.getD j dfltPlanet).velocity
        + dt • s.compute_gravitational_forces.getD j 0 := by
    intro j hj
    rw [Finset.mem_range] at hj
    have hj2 : j < s.compute_gravitational_forces.length := by rw [← hlen]; exact hj
    have hj3 : j < (s.update_positions dt).planets.length := by
      rw [update_positions_length]; exact hj
    rw [List.getD_eq_getElem _ _ hj3, List.getD_eq_getElem _ _ hj,
      List.getD_eq_getElem _ _ hj2]
    have hgz : (s.update_positions dt).planets[j]
        = integrate dt s.planets[j] s.compute_gravitational_forces[j] := by
      simp only [SolarSystem.update_positions]
      exact List.getElem_zipWith
    rw [hgz, integrate_mass, integrate_velocity, smul_add, smul_comm,
      smul_vdiv _ (hm _ (List.getElem_mem hj)) _]
  rw [Finset.sum_congr rfl key, Finset.sum_add_distrib, ← Finset.smul_sum]
  have hforces : ∑ j ∈ Finset.range s.planets.length,
      s.compute_gravitational_forces.getD j 0 = 0 := by
    rw [Finset.sum_congr rfl (fun j hj => compute_forces_getD s j (Finset.mem_range.mp hj))]
    exact sum_forces_zero s.gravitational_constant s.planets
  rw [hforces, smul_zero, add_zero, momentum_eq_sum]

theorem update_positions_masses (s : SolarSystem) (dt : ℝ) :
    (s.update_positions dt).planets.map Planet.mass = s.planets.map Planet.mass := by
  apply List.ext_getElem
  · simp [update_positions_length]
  · intro i h1 h2
    have hi : i < s.planets.length := by simpa using h2
    have hif : i < s.compute_gravitational_forces.length := by
      rw [compute_forces_length]; exact hi
    have hiu : i < (s.update_positions dt).planets.length := by
      rw [update_positions_length]; exact hi
    simp only [List.getElem_map]
    have hgz : (s.update_positions dt).planets[i]
        = integrate dt s.planets[i] s.compute_gravitational_forces[i] := by
      simp only [SolarSystem.update_positions]
      exact List.getElem_zipWith
    rw [hgz, integrate_mass]

theorem masses_nonzero_update (s : SolarSystem) (dt : ℝ)
    (hm : ∀ p ∈ s.planets, p.mass ≠ 0) :
    ∀ p ∈ (s.update_positions dt).planets, p.mass ≠ 0 := by
  intro p hp
  have : p.mass ∈ (s.update_positions dt).planets.map Planet.mass :=
    List.mem_map_of_mem Planet.mass hp
  rw [update_positions_masses] at this
  obtain ⟨q, hq, hqm⟩ := List.mem_map.mp this
  rw [← hqm]
  exact hm q hq

theorem momentum_step_iter (s : SolarSystem) (dt : ℝ)
    (hm : ∀ p ∈ s.planets, p.mass ≠ 0) :
    ∀ n, momentum (step_iter s dt n) = momentum s := by
  have hms : ∀ n, ∀ p ∈ (step_iter s dt n).planets, p.mass ≠ 0 := by
    intro n
    induction n with
    | zero => exact hm
    | succ k ih => exact masses_nonzero_update _ dt ih
  intro n
  induction n with
  | zero => rfl
  | succ k ih =>
    rw [step_iter, momentum_update_positions _ dt (hms k), ih]

theorem vdiv_zero (c : ℝ) : vdiv 0 c = 0 := by
  simp [vdiv]

theorem update_planets_getD (s : SolarSystem) (dt : ℝ) (i : ℕ)
    (hi : i < s.planets.length) :
    (s.update_positions dt).planets.getD i dfltPlanet
      = integrate dt (s.planets.getD i dfltPlanet)
          (s.compute_gravitational_forces.getD i 0) := by
  have hif : i < s.compute_gravitational_forces.length := by
    rw [compute_forces_length]; exact hi
  have hiu : i < (s.update_positions dt).planets.length := by
    rw [update_positions_length]; exact hi
  rw [List.getD_eq_getElem _ _ hiu, List.getD_eq_getElem _ _ hi,
    List.getD_eq_getElem _ _ hif]
  simp only [SolarSystem.update_positions]
  exact List.getElem_zipWith

theorem update_velocity_getD (s : SolarSystem) (dt : ℝ) (i : ℕ) :
    ((s.update_positions dt).planets.getD i dfltPlanet).velocity
      = (s.planets.getD i dfltPlanet).velocity
        + dt • vdiv (s.compute_gravitational_forces.getD i 0)
            (s.planets.getD i dfltPlanet).mass := by
  by_cases hi : i < s.planets.length
  · rw [update_planets_getD s dt i hi, integrate_velocity]
  · push_neg at hi
    have h1 : (s.update_positions dt).planets.getD i dfltPlanet = dfltPlanet :=
      List.getD_eq_default _ _ (by rw [update_positions_length]; exact hi)
    have h2 : s.planets.getD i dfltPlanet = dfltPlanet :=
      List.getD_eq_default _ _ hi
    have h3 : s.compute_gravitational_forces.getD i 0 = 0 :=
      List.getD_eq_default _ _ (by rw [compute_forces_length]; exact hi)
    rw [h1, h2, h3, vdiv_zero, smul_zero, add_zero]

theorem update_position_getD (s : SolarSystem) (dt : ℝ) (i : ℕ) :
    ((s.update_positions dt).planets.getD i dfltPlanet).position
      = (s.planets.getD i dfltPlanet).position
        + dt • ((s.update_positions dt).planets.getD i dfltPlanet).velocity := by
  by_cases hi : i < s.planets.length
  · rw [update_planets_getD s dt i hi, integrate_position, integrate_velocity]
  · push_neg at hi
    have h1 : (s.update_positions dt).planets.getD i dfltPlanet = dfltPlanet :=
      List.getD_eq_default _ _ (by rw [update_positions_length]; exact hi)
    have h2 : s.planets.getD i dfltPlanet = dfltPlanet :=
      List.getD_eq_default _ _ hi
    rw [h1, h2]
    show (0 : Vec3) = 0 + dt • (0 : Vec3)
    rw [smul_zero, add_zero]

/-! ### Claim theorems -/

/-- Claim C1: `compute_gravitational_forces` returns one force vector per body,
index-aligned with the collection, the entry for body `i` being the sum over
every `j ≠ i` of the vector of magnitude `G * mass_i * mass_j / distance^2`
directed along the unit displacement vector from body `i` toward body `j`,
accumulated over the full ordered double loop. -/
theorem compute_forces_matches_spec (s : SolarSystem) :
    s.compute_gravitational_forces
      = compute_forces_spec s.gravitational_constant s.planets := by
  apply List.ext_getElem
  · simp [compute_forces_length, compute_forces_spec]
  · intro i h1 h2
    have hi : i < s.planets.length := by
      rw [← compute_forces_length s]; exact h1
    simp only [SolarSystem.compute_gravitational_forces, compute_forces_spec,
      List.getElem_map, List.getElem_enum, List.getElem_range]
    rw [forceOn_eq_sum]
    refine Finset.sum_congr rfl fun j _ => ?_
    by_cases h : i = j
    · simp [h]
    · simp only [if_neg h]
      rw [bodyForce_eq_spec, List.getD_eq_getElem _ _ hi]

/-- Claim C2: one integration step updates each body `i` by
`acceleration_i = force_i / mass_i`, then `velocity_i += acceleration_i * dt`,
then `position_i += velocity_i * dt` with the already-updated velocity
(semi-implicit Euler), where the forces are those computed from the pre-step
state, before any body is mutated. -/
theorem update_positions_semi_implicit_euler (s : SolarSystem) (dt : ℝ) :
    (s.update_positions dt).planets.length = s.planets.length
    ∧ ∀ i,
      ((s.update_positions dt).planets.getD i dfltPlanet).velocity
        = (s.planets.getD i dfltPlanet).velocity
          + dt • vdiv (s.compute_gravitational_forces.getD i 0)
              (s.planets.getD i dfltPlanet).mass
      ∧ ((s.update_positions dt).planets.getD i dfltPlanet).position
        = (s.planets.getD i dfltPlanet).position
          + dt • ((s.update_positions dt).planets.getD i dfltPlanet).velocity :=
  ⟨update_positions_length s dt,
   fun i => ⟨update_velocity_getD s dt i, update_position_getD s dt i⟩⟩

/-- A degenerate configuration: two distinct bodies at the same position,
the first one moving. -/
noncomputable def degSystem : SolarSystem :=
  { planets :=
      [Planet.new "A" 1 (0, 0, 0) (1, 0, 0) (0, 0, 0),
       Planet.new "B" 1 (0, 0, 0) (0, 0, 0) (0, 0, 0)],
    gravitational_constant := 6.67430e-11 }

/-- Claim C3, counterexample: on a state with two distinct bodies at identical
positions, `update_positions` does not leave body state unchanged (and the
embedded step is a total function with no error path at all): body 0 moves. -/
theorem degenerate_step_mutates_state :
    ((degSystem.update_positions 1).planets.getD 0 dfltPlanet).position
      ≠ (degSystem.planets.getD 0 dfltPlanet).position := by
  have h0 : (0:ℕ) < degSystem.planets.length := by simp [degSystem]
  rw [update_planets_getD degSystem 1 0 h0]
  have hf : degSystem.compute_gravitational_forces.getD 0 0 = 0 := by
    rw [compute_forces_getD degSystem 0 h0]
    simp [degSystem, Planet.new, bodyForce, magnitude, normalize,
      Finset.sum_range_succ, Prod.mk_sub_mk]
  rw [hf, integrate_position, vdiv_zero, smul_zero, add_zero]
  simp only [degSystem, Planet.new, List.getD_cons_zero]
  intro h
  have h1 := congrArg Prod.fst h
  simp [Prod.mk_add_mk, Prod.smul_mk] at h1

/-- Claim C3, amended: with two distinct bodies at identical positions the
step does not abort — `update_positions` is total, and every body is still
integrated (position advanced by the updated velocity times `dt`); in the
source the coincident pair's force normalization divides by zero. -/
theorem update_positions_total_on_degenerate (s : SolarSystem) (dt : ℝ)
    (h : ∃ i j, i < s.planets.length ∧ j < s.planets.length ∧ i ≠ j ∧
      (s.planets.getD i dfltPlanet).position
        = (s.planets.getD j dfltPlanet).position) :
    (s.update_positions dt).planets.length = s.planets.length
    ∧ ∀ i,
      ((s.update_positions dt).planets.getD i dfltPlanet).position
        = (s.planets.getD i dfltPlanet).position
          + dt • ((s.update_positions dt).planets.getD i dfltPlanet).velocity :=
  ⟨update_positions_length s dt, fun i => update_position_getD s dt i⟩

/-- Witness for the amended C3 at the concrete degenerate configuration. -/
theorem update_positions_total_on_degenerate_witness :
    (degSystem.update_positions 1).planets.length = degSystem.planets.length
    ∧ ∀ i,
      ((degSystem.update_positions 1).planets.getD i dfltPlanet).position
        = (degSystem.planets.getD i dfltPlanet).position
          + (1:ℝ) • ((degSystem.update_positions 1).planets.getD i dfltPlanet).velocity :=
  update_positions_total_on_degenerate degSystem 1
    ⟨0, 1, by simp [degSystem], by simp [degSystem],
      by norm_num, by simp [degSystem, Planet.new]⟩

/-- Claim C4, counterexample: `Planet::new` accepts a nonpositive mass and
`add_planet` adds the body: with mass `-1` construction returns a planet of
mass `-1` and the collection grows to length 1. -/
theorem negative_mass_planet_is_added :
    ((SolarSystem.new.add_planet (Planet.new "X" (-1) 0 0 (0, 0, 0))).planets.length = 1)
    ∧ ((SolarSystem.new.add_planet
          (Planet.new "X" (-1) 0 0 (0, 0, 0))).planets.getD 0 dfltPlanet).mass = -1 := by
  constructor <;> simp [SolarSystem.new, SolarSystem.add_planet, Planet.new]

/-- Claim C4, amended: body construction performs no validation — for every
mass (positive or not) `Planet::new` succeeds, returning a record carrying
exactly the given mass, and `add_planet` unconditionally appends the body. -/
theorem planet_new_unvalidated (name : String) (mass : ℝ) (position velocity : Vec3)
    (color : ℕ × ℕ × ℕ) (s : SolarSystem) :
    (Planet.new name mass position velocity color).mass = mass
    ∧ (s.add_planet (Planet.new name mass position velocity color)).planets
        = s.planets ++ [Planet.new name mass position velocity color] :=
  ⟨rfl, rfl⟩

/-- Claim C5: for a two-body configuration with nonzero separation, the force
computed on body A from B and on B from A are equal in magnitude and opposite
in direction: `force_A = -force_B`. -/
theorem newton_third_law (sys : SolarSystem) (a b : Planet)
    (hps : sys.planets = [a, b]) (hsep : a.position ≠ b.position) :
    sys.compute_gravitational_forces.getD 0 0
      = -(sys.compute_gravitational_forces.getD 1 0) := by
  have hc : sys.compute_gravitational_forces
      = [bodyForce sys.gravitational_constant a b,
         bodyForce sys.gravitational_constant b a] := by
    simp [SolarSystem.compute_gravitational_forces, hps, forceOn,
      List.enum, List.enumFrom]
  rw [hc]
  simp only [List.getD_cons_zero, List.getD_cons_succ]
  rw [bodyForce_antisymm sys.gravitational_constant a b, neg_neg]

/-- Witness for C5 at a concrete separated two-body configuration. -/
theorem newton_third_law_witness :
    (SolarSystem.mk
        [Planet.new "A" 1 (0, 0, 0) 0 (0, 0, 0),
         Planet.new "B" 2 (1, 0, 0) 0 (0, 0, 0)] 1).compute_gravitational_forces.getD 0 0
      = -((SolarSystem.mk
        [Planet.new "A" 1 (0, 0, 0) 0 (0, 0, 0),
         Planet.new "B" 2 (1, 0, 0) 0 (0, 0, 0)] 1).compute_gravitational_forces.getD 1 0) :=
  newton_third_law _ _ _ rfl
    (by simp [Planet.new, Prod.ext_iff])

/-- Claim C6: for positive masses and pairwise-distinct positions, the total
momentum (mass-weighted sum of velocities) after one step equals the total
momentum before the step, and is conserved across any number of steps of
fixed `dt`. -/
theorem momentum_conserved (s : SolarSystem) (dt : ℝ)
    (hm : ∀ p ∈ s.planets, 0 < p.mass)
    (hpos : s.planets.Pairwise (fun a b => a.position ≠ b.position)) :
    momentum (s.update_positions dt) = momentum s
    ∧ ∀ n, momentum (step_iter s dt n) = momentum s := by
  have hm0 : ∀ p ∈ s.planets, p.mass ≠ 0 := fun p hp => ne_of_gt (hm p hp)
  exact ⟨momentum_update_positions s dt hm0, momentum_step_iter s dt hm0⟩

/-- Witness for C6 at a concrete two-body configuration. -/
theorem momentum_conserved_witness :
    momentum ((SolarSystem.mk
        [Planet.new "A" 1 (0, 0, 0) (0, 1, 0) (0, 0, 0),
         Planet.new "B" 2 (1, 0, 0) 0 (0, 0, 0)] 1).update_positions 1)
      = momentum (SolarSystem.mk
        [Planet.new "A" 1 (0, 0, 0) (0, 1, 0) (0, 0, 0),
         Planet.new "B" 2 (1, 0, 0) 0 (0, 0, 0)] 1)
    ∧ ∀ n, momentum (step_iter (SolarSystem.mk
        [Planet.new "A" 1 (0, 0, 0) (0, 1, 0) (0, 0, 0),
         Planet.new "B" 2 (1, 0, 0) 0 (0, 0, 0)] 1) 1 n)
      = momentum (SolarSystem.mk
        [Planet.new "A" 1 (0, 0, 0) (0, 1, 0) (0, 0, 0),
         Planet.new "B" 2 (1, 0, 0) 0 (0, 0, 0)] 1) :=
  momentum_conserved _ 1
    (by intro p hp; simp [Planet.new] at hp; rcases hp with h | h <;> rw [h] <;> norm_num)
    (by simp [Planet.new, Prod.ext_iff])

/-- Claim C7: a simulation containing exactly one body gets zero net force;
one step of nominal `dt` under time scale `ts` leaves its velocity unchanged
and advances its position by exactly `velocity * dt * ts`. -/
theorem single_body_step (p : Planet) (g dt ts : ℝ) :
    (SolarSystem.mk [p] g).compute_gravitational_forces = [0]
    ∧ step_scaled (SolarSystem.mk [p] g) dt ts
      = SolarSystem.mk
          [{ p with position := p.position + (dt * ts) • p.velocity }] g := by
  have hforces : (SolarSystem.mk [p] g).compute_gravitational_forces = [0] := by
    simp [SolarSystem.compute_gravitational_forces, forceOn, List.enum, List.enumFrom]
  refine ⟨hforces, ?_⟩
  simp only [step_scaled, SolarSystem.update_positions, hforces]
  simp [integrate, vdiv_zero]

/-- Claim C8: a step of nominal `dt` with time scale `k` produces exactly the
state of a step of nominal `dt * k` with time scale 1; the driver's `update`
is exactly such a step with nominal `dt = 60` and `time_scale` the speed
multiplier. -/
theorem time_scale_linearity (s : SolarSystem) (dt k : ℝ) (m : Model) (hk : 0 < k) :
    step_scaled s dt k = step_scaled s (dt * k) 1
    ∧ update m
      = { m with solar_system := step_scaled m.solar_system 60 m.speed_multiplier } := by
  constructor
  · simp [step_scaled]
  · simp only [update, step_scaled]
    norm_num

/-- Witness for C8 at `k = 2`. -/
theorem time_scale_linearity_witness :
    step_scaled SolarSystem.new 1 2 = step_scaled SolarSystem.new (1 * 2) 1
    ∧ update (Model.mk SolarSystem.new 1 1)
      = { Model.mk SolarSystem.new 1 1 with
          solar_system := step_scaled SolarSystem.new 60 1 } :=
  time_scale_linearity SolarSystem.new 1 2 (Model.mk SolarSystem.new 1 1) (by norm_num)

/-- Claim C9: a step changes only positions and velocities: each body's mass,
name and color, the gravitational constant, and the number and order of
bodies are unchanged. -/
theorem step_preserves_frame (s : SolarSystem) (dt : ℝ) :
    (s.update_positions dt).gravitational_constant = s.gravitational_constant
    ∧ (s.update_positions dt).planets.length = s.planets.length
    ∧ ∀ i,
      ((s.update_positions dt).planets.getD i dfltPlanet).mass
        = (s.planets.getD i dfltPlanet).mass
      ∧ ((s.update_positions dt).planets.getD i dfltPlanet).name
        = (s.planets.getD i dfltPlanet).name
      ∧ ((s.update_positions dt).planets.getD i dfltPlanet).color
        = (s.planets.getD i dfltPlanet).color := by
  refine ⟨update_positions_g s dt, update_positions_length s dt, fun i => ?_⟩
  by_cases hi : i < s.planets.length
  · rw [update_planets_getD s dt i hi]
    exact ⟨integrate_mass _ _ _, integrate_name _ _ _, integrate_color _ _ _⟩
  · push_neg at hi
    rw [List.getD_eq_default _ _ (by rw [update_positions_length]; exact hi),
      List.getD_eq_default _ _ hi]
    exact ⟨rfl, rfl, rfl⟩

/-- Claim C10: the force buffer is index-aligned with the body collection
(same length), the step preserves the collection length (so zipping the two
is total), and a step on a simulation with zero bodies leaves it unchanged. -/
theorem force_buffer_aligned (s : SolarSystem) (dt g : ℝ) :
    s.compute_gravitational_forces.length = s.planets.length
    ∧ (s.update_positions dt).planets.length = s.planets.length
    ∧ SolarSystem.update_positions (SolarSystem.mk [] g) dt = SolarSystem.mk [] g :=
  ⟨compute_forces_length s, update_positions_length s dt, rfl⟩

end SolarSim
